import Mathlib

/-!
Verification of the freshrelease-mcp-server tool dispatcher against its
natural-language specification.

The definitions below are a shallow embedding of the repository's source
(`src/index.ts`, `src/server.ts`, and the stdio variant).  JavaScript
values flowing through the handlers are modelled by `JsonVal`
(JavaScript object fields keep insertion order, so objects are ordered
association lists); the upstream HTTP service is a function from requests
to responses; each handler is a pure function returning an `Except`
(a thrown JS exception is `Except.error` carrying the error message)
together with the ordered list of upstream requests it issued.
Authorization headers carry the bearer token on every upstream request in
the source; they are attached uniformly and play no role in any claim, so
requests are modelled by method, path and JSON body only.
-/

namespace Fresh

/-- JSON-shaped JavaScript values.  Objects are ordered association
lists, mirroring JavaScript property insertion order. -/
inductive JsonVal where
  | null
  | bool (b : Bool)
  | num (n : Int)
  | str (s : String)
  | arr (elems : List JsonVal)
  | obj (fields : List (String × JsonVal))

/-- Property access `v.k` on a JS value: `none` models `undefined`
(non-objects and missing keys give `undefined` under optional chaining). -/
def getField (v : JsonVal) (k : String) : Option JsonVal :=
  match v with
  | JsonVal.obj fs => (fs.find? (fun p => p.1 == k)).map Prod.snd
  | _ => none

/-- Two-step optional-chained access `v?.k1?.k2`. -/
def getField2 (v : JsonVal) (k1 k2 : String) : Option JsonVal :=
  (getField v k1).bind (fun w => getField w k2)

/-- JavaScript truthiness of a (JSON-shaped) value. -/
def jsTruthy : JsonVal → Bool
  | JsonVal.null => false
  | JsonVal.bool b => b
  | JsonVal.num n => n != 0
  | JsonVal.str s => s != ""
  | JsonVal.arr _ => true
  | JsonVal.obj _ => true

/-- JavaScript string interpolation of a value (used when a value is
spliced into a template-literal path, e.g. an integer issue id). -/
def jsToString : JsonVal → String
  | JsonVal.null => "null"
  | JsonVal.bool b => if b then "true" else "false"
  | JsonVal.num n => toString n
  | JsonVal.str s => s
  | JsonVal.arr _ => ""
  | JsonVal.obj _ => "[object Object]"

/-- JS truthiness on an optional string argument: a missing field and the
empty string are both falsy; a truthy string is returned unchanged. -/
def truthyStr : Option String → Option String
  | some s => if s = "" then none else some s
  | none => none

/-- JavaScript `a || b` over two optional string values, followed by a
final truthiness check (instantiated by the dispatchers' credential
resolution `args.api_token || configToken` plus `if (!token) throw`). -/
def jsOrStr (a b : Option String) : Option String :=
  match truthyStr a with
  | some s => some s
  | none => truthyStr b

/-- Whitespace skipped by `parseInt` before reading the number. -/
def isJsSpace (c : Char) : Bool :=
  c = ' ' || c = '\t' || c = '\n' || c = '\r'

def digitVal (c : Char) : Nat := c.toNat - 48

/-- Value of the leading run of decimal digits; `none` when there is no
leading digit (the NaN case of `parseInt`). -/
def decDigitsVal (cs : List Char) : Option Nat :=
  match cs.takeWhile Char.isDigit with
  | [] => none
  | ds => some (ds.foldl (fun a c => a * 10 + digitVal c) 0)

def isHexDigit (c : Char) : Bool :=
  c.isDigit || (decide (97 ≤ c.toNat) && decide (c.toNat ≤ 102)) ||
    (decide (65 ≤ c.toNat) && decide (c.toNat ≤ 70))

def hexDigitVal (c : Char) : Nat :=
  if c.isDigit then c.toNat - 48
  else if decide (97 ≤ c.toNat) then c.toNat - 87
  else c.toNat - 55

def hexDigitsVal (cs : List Char) : Option Nat :=
  match cs.takeWhile isHexDigit with
  | [] => none
  | ds => some (ds.foldl (fun a c => a * 16 + hexDigitVal c) 0)

/-- Whether the magnitude text begins with a hexadecimal `0x`/`0X`
prefix. -/
def startsWithHex : List Char → Bool
  | c0 :: c1 :: _ => c0 = '0' && (c1 = 'x' || c1 = 'X')
  | _ => false

/-- Magnitude part of `parseInt` with unspecified radix: a `0x`/`0X`
prefix switches to hexadecimal, otherwise the leading decimal digits are
read; `none` models NaN. -/
def parseIntMagnitude (cs : List Char) : Option Nat :=
  if startsWithHex cs then hexDigitsVal (cs.drop 2) else decDigitsVal cs

/-- Model of the JavaScript builtin `parseInt(s)` (no radix argument):
skip leading whitespace, read an optional sign, then the longest numeric
prefix; the result is `none` exactly when `parseInt` returns NaN. -/
def parseIntJS (s : String) : Option Int :=
  match s.toList.dropWhile isJsSpace with
  | [] => none
  | c :: rest =>
    if c = '-' then (parseIntMagnitude rest).map (fun n => -(n : Int))
    else if c = '+' then (parseIntMagnitude rest).map (fun n => (n : Int))
    else (parseIntMagnitude (c :: rest)).map (fun n => (n : Int))

/-- A JS number that may be NaN (`none`), as it appears in the outbound
JSON body: `JSON.stringify` renders NaN as `null`. -/
def jsNumToJson : Option Int → JsonVal
  | some n => JsonVal.num n
  | none => JsonVal.null

/-- JavaScript `String.prototype.split` with a one-character separator.
Note `"".split(sep)` is `[""]` and a leading separator yields a leading
empty part. -/
def splitChars (sep : Char) : List Char → List (List Char)
  | [] => [[]]
  | c :: cs =>
    if c = sep then [] :: splitChars sep cs
    else
      match splitChars sep cs with
      | [] => [[c]]
      | p :: ps => (c :: p) :: ps

/-- Whether `cs` starts with `sub`. -/
def listStartsWith : List Char → List Char → Bool
  | _, [] => true
  | [], _ :: _ => false
  | a :: as, b :: bs => a == b && listStartsWith as bs

/-- Whether `sub` occurs contiguously inside the second list. -/
def listContainsSub (sub : List Char) : List Char → Bool
  | [] => sub.isEmpty
  | c :: rest => listStartsWith (c :: rest) sub || listContainsSub sub rest

/-- JS `s.includes(sub)`: substring containment. -/
def containsStr (s sub : String) : Bool := listContainsSub sub.toList s.toList

/-- JS `s.toLowerCase()` (ASCII case mapping, character by character). -/
def toLowerJS (s : String) : String := String.mk (s.toList.map Char.toLower)

/-- An object literal whose fields with `undefined` values are dropped,
as `JSON.stringify` does when serializing the body. -/
def objFiltered (fields : List (String × Option JsonVal)) : JsonVal :=
  JsonVal.obj (fields.foldr
    (fun p acc => match p.2 with | some v => (p.1, v) :: acc | none => acc) [])

/-! ## The upstream HTTP collaborator -/

/-- An outbound HTTP request: method, full URL, and the serialized JSON
body when one is sent. -/
structure Request where
  method : String
  path : String
  body : Option JsonVal

/-- An upstream HTTP response.  `body` is the result of `response.json()`
(`Except.error` models a JSON parse failure, which throws in the source);
`rawText` is what `response.text()` yields. -/
structure Response where
  status : Nat
  statusText : String
  body : Except String JsonVal
  rawText : String

/-- The `response.ok` flag of `fetch`: status in the inclusive range
200–299. -/
def Response.ok (r : Response) : Bool :=
  decide (200 ≤ r.status) && decide (r.status ≤ 299)

/-- The upstream service, as seen by a single tool invocation. -/
abbrev Env := Request → Response

def BASE_URL : String := "https://freshworks.freshrelease.com"

def usersReq (project : String) (page : Nat) : Request :=
  { method := "GET",
    path := BASE_URL ++ "/" ++ project ++ "/users?page=" ++ toString page,
    body := none }

def issueReq (project key : String) : Request :=
  { method := "GET",
    path := BASE_URL ++ "/" ++ project ++ "/issues/" ++ key,
    body := none }

def statusesReq (project : String) : Request :=
  { method := "GET", path := BASE_URL ++ "/" ++ project ++ "/statuses", body := none }

def issueTypesReq (project : String) : Request :=
  { method := "GET", path := BASE_URL ++ "/" ++ project ++ "/issue_types", body := none }

def createIssueReq (project : String) (payload : JsonVal) : Request :=
  { method := "POST", path := BASE_URL ++ "/" ++ project ++ "/issues", body := some payload }

def updateIssueReq (project key : String) (payload : JsonVal) : Request :=
  { method := "PUT", path := BASE_URL ++ "/" ++ project ++ "/issues/" ++ key,
    body := some payload }

def commentsPostReq (project idStr : String) (payload : JsonVal) : Request :=
  { method := "POST",
    path := BASE_URL ++ "/" ++ project ++ "/issues/" ++ idStr ++ "/comments",
    body := some payload }

def commentsGetReq (project idStr : String) : Request :=
  { method := "GET",
    path := BASE_URL ++ "/" ++ project ++ "/issues/" ++ idStr ++ "/comments",
    body := none }

/-! ## The MCP outcome shape -/

/-- The text carried by a content item: either a plain message string or
the `JSON.stringify` rendering of a structured value. -/
inductive TextPayload where
  | plain (s : String)
  | jsonOf (v : JsonVal)

structure ContentItem where
  type : String
  text : TextPayload

def textJson (v : JsonVal) : ContentItem := { type := "text", text := TextPayload.jsonOf v }

def textPlain (s : String) : ContentItem := { type := "text", text := TextPayload.plain s }

/-- The uniform result shape returned to the caller: a ToolOutcome.
A source return without an `isError` field is modelled with
`isError := false`. -/
structure ToolOutcome where
  content : List ContentItem
  isError : Bool

/-! ## Helper `extractProjectKey` (identical in index.ts and server.ts) -/

/-- Extracts the project key from an issue key: split on the first
character class `-`, demand at least two parts, return the first.
An `Except.error` models the thrown `Invalid issue key format` error. -/
def extractProjectKey (issue_key : String) : Except String String :=
  let parts := (splitChars '-' issue_key.toList).map (fun cs => String.mk cs)
  if parts.length < 2 then
    Except.error ("Invalid issue key format: " ++ issue_key ++
      ". Expected format: PROJECT-NUMBER")
  else
    Except.ok (parts.headD "")

/-! ## Helper `getIssueIdFromKey` (identical in index.ts and server.ts) -/

/-- Resolves an issue key to the upstream numeric issue id via a GET on
the issue endpoint.  A non-ok status throws `Issue KEY not found`; a
missing or falsy `issue.id` throws the extraction error. -/
def getIssueIdFromKey (issue_key : String) (project : String) (env : Env) :
    Except String JsonVal × List Request :=
  let req := issueReq project issue_key
  let resp := env req
  if !resp.ok then
    (Except.error ("Issue " ++ issue_key ++ " not found"), [req])
  else
    match resp.body with
    | Except.error e => (Except.error e, [req])
    | Except.ok data =>
      match getField2 data "issue" "id" with
      | some v =>
        if jsTruthy v then (Except.ok v, [req])
        else (Except.error "Could not extract issue ID from response", [req])
      | none => (Except.error "Could not extract issue ID from response", [req])

/-! ## Helper `searchUserByName` (identical logic in index.ts and server.ts) -/

/-- The `data.users || []` read: the upstream listing body's `users`
array, or `[]` when the field is absent or not an array. -/
def usersFieldOf (data : JsonVal) : List JsonVal :=
  match getField data "users" with
  | some (JsonVal.arr us) => us
  | _ => []

/-- Case-insensitive substring match of the lowercased search text
against a user's `name` or `email` (optional chaining: a missing field
never matches). -/
def userMatches (searchLower : String) (u : JsonVal) : Bool :=
  (match getField u "name" with
   | some (JsonVal.str s) => containsStr (toLowerJS s) searchLower
   | _ => false) ||
  (match getField u "email" with
   | some (JsonVal.str s) => containsStr (toLowerJS s) searchLower
   | _ => false)

/-- Result value of the user search, as returned by the helper. -/
inductive SearchResult where
  | found (id name email : Option JsonVal)
  | notFound (searched_name : String)

/-- Condition under which the pagination loop does not continue past the
given page: non-success status, a JSON parse failure, or an empty (or
absent) `users` array. -/
def pageStops (env : Env) (project : String) (page : Nat) : Bool :=
  let resp := env (usersReq project page)
  !resp.ok ||
    (match resp.body with
     | Except.error _ => true
     | Except.ok data => (usersFieldOf data).isEmpty)

/-- The `while (page <= maxPages)` pagination loop, with the remaining
number of permitted iterations as fuel.  Accumulates the fetched users
and the ordered request trace. -/
def searchLoop (env : Env) (project : String) :
    Nat → Nat → List JsonVal → List Request →
      Except String (List JsonVal) × List Request
  | 0, _, acc, trace => (Except.ok acc, trace)
  | fuel + 1, page, acc, trace =>
    let req := usersReq project page
    let resp := env req
    let trace' := trace ++ [req]
    if !resp.ok then (Except.ok acc, trace')
    else
      match resp.body with
      | Except.error e => (Except.error e, trace')
      | Except.ok data =>
        let users := usersFieldOf data
        if users.isEmpty then (Except.ok acc, trace')
        else searchLoop env project fuel (page + 1) (acc ++ users) trace'

def maxPages : Nat := 10

/-- The user search: accumulate users from pages `1..maxPages` (stopping
early per `pageStops`), then scan for the first case-insensitive match on
name or email. -/
def searchUserByName (searchName : String) (env : Env) (project : String) :
    Except String SearchResult × List Request :=
  match searchLoop env project maxPages 1 [] [] with
  | (Except.error e, trace) => (Except.error e, trace)
  | (Except.ok allUsers, trace) =>
    let searchLower := toLowerJS searchName
    match allUsers.find? (userMatches searchLower) with
    | some u =>
      (Except.ok (SearchResult.found (getField u "id") (getField u "name")
        (getField u "email")), trace)
    | none => (Except.ok (SearchResult.notFound searchName), trace)

/-- JSON rendering of the search result, `{found: true, user: {id, name,
email}}` or `{found: false, searched_name}`; `undefined` user fields are
dropped by `JSON.stringify`. -/
def renderSearchResult : SearchResult → JsonVal
  | SearchResult.found id name email =>
    JsonVal.obj [("found", JsonVal.bool true),
      ("user", objFiltered [("id", id), ("name", name), ("email", email)])]
  | SearchResult.notFound s =>
    JsonVal.obj [("found", JsonVal.bool false), ("searched_name", JsonVal.str s)]

/-! ## Tool-call arguments -/

/-- The loosely-typed argument bag of a tool call.  A JS field that is
absent (`undefined`) is `none`.  The union of the fields read by all
dispatcher variants. -/
structure Args where
  api_token : Option String := none
  name : Option String := none
  project_key : Option String := none
  issue_key : Option String := none
  title : Option String := none
  description : Option String := none
  issue_type_id : Option String := none
  owner_id : Option String := none
  priority_id : Option String := none
  status_id : Option String := none
  content : Option String := none
  page : Option Int := none
  project_id : Option String := none
  issue_id : Option String := none
  custom_fields : Option JsonVal := none

/-! ## Request-body construction (index.ts / server.ts) -/

/-- The `create_issue` body: a nested `issue` object in source field
order.  `description || ""`, `issue_type_id` defaulted upstream of this
function, and the three optional id fields sent as `null` when falsy and
as `parseInt` of the supplied string otherwise (NaN serializing to
null). -/
def createIssuePayload (title : String) (description : Option String)
    (typeId : String) (owner_id priority_id status_id : Option String)
    (project_key : String) : JsonVal :=
  JsonVal.obj [("issue", JsonVal.obj
    [ ("title", JsonVal.str title),
      ("description", JsonVal.str ((truthyStr description).getD "")),
      ("key", JsonVal.str project_key),
      ("issue_type_id", jsNumToJson (parseIntJS typeId)),
      ("owner_id",
        match truthyStr owner_id with
        | some s => jsNumToJson (parseIntJS s)
        | none => JsonVal.null),
      ("priority_id",
        match truthyStr priority_id with
        | some s => jsNumToJson (parseIntJS s)
        | none => JsonVal.null),
      ("status_id",
        match truthyStr status_id with
        | some s => jsNumToJson (parseIntJS s)
        | none => JsonVal.null) ])]

/-- One `if (x) payload.issue.k = f(x)` assignment: a singleton field
when the argument is truthy, nothing otherwise. -/
def optField (k : String) (v : Option String) (f : String → JsonVal) :
    List (String × JsonVal) :=
  match truthyStr v with
  | some s => [(k, f s)]
  | none => []

def parsedIdField (k : String) (v : Option String) : List (String × JsonVal) :=
  optField k v (fun s => jsNumToJson (parseIntJS s))

/-- The `update_issue` body: starts as `{issue: {key}}` and gains one
field per truthy optional argument, in source assignment order. -/
def updateIssuePayload (issue_key : String) (a : Args) : JsonVal :=
  JsonVal.obj [("issue", JsonVal.obj
    ( [("key", JsonVal.str issue_key)]
      ++ optField "title" a.title JsonVal.str
      ++ optField "description" a.description JsonVal.str
      ++ parsedIdField "issue_type_id" a.issue_type_id
      ++ parsedIdField "status_id" a.status_id
      ++ parsedIdField "owner_id" a.owner_id
      ++ parsedIdField "priority_id" a.priority_id ))]

/-! ## The index.ts tool handlers -/

/-- One handler's result: thrown message or content list, plus the
ordered upstream request trace. -/
abbrev HandlerResult := Except String (List ContentItem) × List Request

def searchHandler (a : Args) (env : Env) : HandlerResult :=
  match truthyStr a.name with
  | none => (Except.error "name is required", [])
  | some searchName =>
    let project := a.project_key.getD "FBOTS"
    match searchUserByName searchName env project with
    | (Except.error e, tr) => (Except.error e, tr)
    | (Except.ok r, tr) => (Except.ok [textJson (renderSearchResult r)], tr)

def getIssueHandler (a : Args) (env : Env) : HandlerResult :=
  match truthyStr a.issue_key with
  | none => (Except.error "issue_key is required", [])
  | some key =>
    match extractProjectKey key with
    | Except.error e => (Except.error e, [])
    | Except.ok project =>
      let req := issueReq project key
      let resp := env req
      match resp.body with
      | Except.error e => (Except.error e, [req])
      | Except.ok data => (Except.ok [textJson data], [req])

def statusesHandler (a : Args) (env : Env) : HandlerResult :=
  let project := (truthyStr a.project_key).getD "FBOTS"
  let req := statusesReq project
  match (env req).body with
  | Except.error e => (Except.error e, [req])
  | Except.ok data => (Except.ok [textJson data], [req])

def issueTypesHandler (a : Args) (env : Env) : HandlerResult :=
  let project := (truthyStr a.project_key).getD "FBOTS"
  let req := issueTypesReq project
  match (env req).body with
  | Except.error e => (Except.error e, [req])
  | Except.ok data => (Except.ok [textJson data], [req])

def createIssueHandler (a : Args) (env : Env) : HandlerResult :=
  match truthyStr a.title with
  | none => (Except.error "title is required", [])
  | some title =>
    let project := a.project_key.getD "FBOTS"
    let typeId := (truthyStr a.issue_type_id).getD "14"
    let payload := createIssuePayload title a.description typeId
      a.owner_id a.priority_id a.status_id project
    let req := createIssueReq project payload
    match (env req).body with
    | Except.error e => (Except.error e, [req])
    | Except.ok data => (Except.ok [textJson data], [req])

def updateIssueHandler (a : Args) (env : Env) : HandlerResult :=
  match truthyStr a.issue_key with
  | none => (Except.error "issue_key is required", [])
  | some key =>
    match extractProjectKey key with
    | Except.error e => (Except.error e, [])
    | Except.ok project =>
      let payload := updateIssuePayload key a
      let req := updateIssueReq project key payload
      match (env req).body with
      | Except.error e => (Except.error e, [req])
      | Except.ok data => (Except.ok [textJson data], [req])

def addCommentHandler (a : Args) (env : Env) : HandlerResult :=
  match truthyStr a.issue_key, truthyStr a.content with
  | some key, some content =>
    (match extractProjectKey key with
     | Except.error e => (Except.error e, [])
     | Except.ok project =>
       match getIssueIdFromKey key project env with
       | (Except.error e, tr) => (Except.error e, tr)
       | (Except.ok idv, tr) =>
         let req := commentsPostReq project (jsToString idv)
           (JsonVal.obj [("content", JsonVal.str content)])
         match (env req).body with
         | Except.error e => (Except.error e, tr ++ [req])
         | Except.ok commentData =>
           (Except.ok [textJson (JsonVal.obj
             [("success", JsonVal.bool true),
              ("issue_key", JsonVal.str key),
              ("issue_id", idv),
              ("comment", commentData)])], tr ++ [req]))
  | _, _ => (Except.error "issue_key and content are required", [])

def getCommentsHandler (a : Args) (env : Env) : HandlerResult :=
  match truthyStr a.issue_key with
  | none => (Except.error "issue_key is required", [])
  | some key =>
    match extractProjectKey key with
    | Except.error e => (Except.error e, [])
    | Except.ok project =>
      match getIssueIdFromKey key project env with
      | (Except.error e, tr) => (Except.error e, tr)
      | (Except.ok idv, tr) =>
        let req := commentsGetReq project (jsToString idv)
        match (env req).body with
        | Except.error e => (Except.error e, tr ++ [req])
        | Except.ok commentsData =>
          (Except.ok [textJson (JsonVal.obj
            [("issue_key", JsonVal.str key),
             ("issue_id", idv),
             ("comments", commentsData)])], tr ++ [req])

/-! ## The index.ts dispatcher -/

/-- Names registered in the index.ts tool catalog (ListTools). -/
def registeredTools : List String :=
  [ "freshrelease_search_user_by_name", "freshrelease_get_issue",
    "freshrelease_get_statuses", "freshrelease_get_issue_types",
    "freshrelease_create_issue", "freshrelease_update_issue",
    "freshrelease_add_comment", "freshrelease_get_comments" ]

/-- The `switch (name)` of the CallTool handler body (inside the `try`).
An unmatched name throws `Unknown tool`. -/
def runTool (name : String) (a : Args) (env : Env) : HandlerResult :=
  if name = "freshrelease_search_user_by_name" then searchHandler a env
  else if name = "freshrelease_get_issue" then getIssueHandler a env
  else if name = "freshrelease_get_statuses" then statusesHandler a env
  else if name = "freshrelease_get_issue_types" then issueTypesHandler a env
  else if name = "freshrelease_create_issue" then createIssueHandler a env
  else if name = "freshrelease_update_issue" then updateIssueHandler a env
  else if name = "freshrelease_add_comment" then addCommentHandler a env
  else if name = "freshrelease_get_comments" then getCommentsHandler a env
  else (Except.error ("Unknown tool: " ++ name), [])

/-- Credential resolution `args.api_token || config.apiToken` followed by
the falsiness check; `none` means the dispatcher throws before entering
the `try` block. -/
def tokenOf (a : Args) (configToken : Option String) : Option String :=
  jsOrStr a.api_token configToken

def tokenRequiredMsg : String :=
  "API token is required. Provide it in the tool call or set FRESHRELEASE_API_TOKEN environment variable."

/-- The full index.ts CallTool dispatcher.  The missing-credential throw
sits before the `try` block, so it escapes as `Except.error`; every
throw inside the `try` (from `runTool`) is caught and converted to an
`isError` outcome with a single text item. -/
def dispatch (name : String) (a : Args) (configToken : Option String)
    (env : Env) : Except String ToolOutcome × List Request :=
  match tokenOf a configToken with
  | none => (Except.error tokenRequiredMsg, [])
  | some _ =>
    match runTool name a env with
    | (Except.ok content, tr) =>
      (Except.ok { content := content, isError := false }, tr)
    | (Except.error e, tr) =>
      (Except.ok { content := [textPlain ("Error: " ++ e)], isError := true }, tr)

/-! ## The server.ts `/mcp` tools-call branch for `get_issue` -/

/-- The `freshrelease_get_issue` case of the `/mcp` `tools/call` switch:
status 404 is special-cased to a structured `Issue not found` payload,
other 4xx/5xx surface `response.text()` as an error payload, success
returns the parsed body.  A successful case is wrapped with no `isError`
flag, i.e. `isError := false`. -/
def mcpGetIssueBranch (issue_key : String) (env : Env) : HandlerResult :=
  match extractProjectKey issue_key with
  | Except.error e => (Except.error e, [])
  | Except.ok project =>
    let req := issueReq project issue_key
    let resp := env req
    if resp.status = 404 then
      (Except.ok [textJson (JsonVal.obj [("error", JsonVal.str "Issue not found")])],
        [req])
    else if decide (400 ≤ resp.status) then
      (Except.ok [textJson (JsonVal.obj [("error", JsonVal.str resp.rawText)])], [req])
    else
      match resp.body with
      | Except.error e => (Except.error e, [req])
      | Except.ok data => (Except.ok [textJson data], [req])

/-- The `/mcp` branch with the content wrap applied: a thrown error
propagates (becoming a JSON-RPC error response upstream of this model),
a produced content list becomes a non-error outcome. -/
def mcpGetIssue (issue_key : String) (env : Env) :
    Except String ToolOutcome × List Request :=
  match mcpGetIssueBranch issue_key env with
  | (Except.error e, tr) => (Except.error e, tr)
  | (Except.ok content, tr) =>
    (Except.ok { content := content, isError := false }, tr)

/-! ## The stdio variant -/

/-- The stdio variant's process-wide credential cell `API_TOKEN`;
`none` models `undefined` (assignable by `set_api_token`), `some ""`
the unset environment default. -/
structure StdioState where
  apiToken : Option String

def PROJECT_KEY : String := "FBOTS"

/-- The stdio variant's single upstream helper: resolve the credential
(`apiToken || API_TOKEN`, throwing when falsy), send the request, throw
`API request failed` on any non-ok status, otherwise parse the body. -/
def makeFreshReleaseRequest (st : StdioState) (method endpoint : String)
    (body : Option JsonVal) (apiToken : Option String) (env : Env) :
    Except String JsonVal × List Request :=
  match jsOrStr apiToken st.apiToken with
  | none =>
    (Except.error "FRESHRELEASE_API_TOKEN is required. Please provide it via environment variable or connection parameter.",
      [])
  | some _ =>
    let req : Request := { method := method, path := BASE_URL ++ endpoint, body := body }
    let resp := env req
    if !resp.ok then
      (Except.error ("API request failed: " ++ toString resp.status ++ " " ++
        resp.statusText), [req])
    else
      match resp.body with
      | Except.error e => (Except.error e, [req])
      | Except.ok data => (Except.ok data, [req])

/-- Splicing a possibly-undefined string argument into a template
literal: `undefined` renders as the string `undefined`. -/
def jsTemplate (o : Option String) : String := o.getD "undefined"

/-- The stdio `create_issue` body: the fixed large `issue` object.
Fields bound to `undefined` arguments are dropped by `JSON.stringify`;
id-like fields are passed through as strings in this variant. -/
def stdioCreatePayload (a : Args) : JsonVal :=
  JsonVal.obj [("issue", objFiltered
    [ ("title", a.title.map JsonVal.str),
      ("description", a.description.map JsonVal.str),
      ("key", some (JsonVal.str PROJECT_KEY)),
      ("issue_type_id", a.issue_type_id.map JsonVal.str),
      ("owner_id", a.owner_id.map JsonVal.str),
      ("project_id", a.project_id.map JsonVal.str),
      ("story_points", some JsonVal.null),
      ("effort", some JsonVal.null),
      ("duration", some JsonVal.null),
      ("blocked_days", some JsonVal.null),
      ("resolved", some (JsonVal.bool false)),
      ("blocked", some (JsonVal.bool false)),
      ("following", some (JsonVal.bool false)),
      ("auto_close_descendants", some (JsonVal.bool false)),
      ("blocked_reason", some JsonVal.null),
      ("tags", some (JsonVal.arr [])),
      ("parent_title", some JsonVal.null),
      ("parent_issue_type_id", some JsonVal.null),
      ("epic_title", some JsonVal.null),
      ("epic_id", some JsonVal.null),
      ("eta_flag", some JsonVal.null),
      ("position", some JsonVal.null),
      ("sprint_issue_status", some JsonVal.null),
      ("previous_issue_id", some JsonVal.null),
      ("next_issue_id", some JsonVal.null),
      ("creater_id", some JsonVal.null),
      ("parent_id", some JsonVal.null),
      ("priority_id", some JsonVal.null),
      ("sub_project_id", some JsonVal.null),
      ("reporter_id", some JsonVal.null),
      ("sprint_id", some JsonVal.null),
      ("status_id", some JsonVal.null),
      ("release_id", some JsonVal.null),
      ("form_id", some JsonVal.null),
      ("workflow_id", some JsonVal.null),
      ("custom_field", some (match a.custom_fields with
        | some v => if jsTruthy v then v else JsonVal.obj []
        | none => JsonVal.obj [])) ])]

/-- The stdio `update_issue` body (string id fields, `priority_id`
assigned before `owner_id` in this variant, optional `custom_field`; an
`undefined` issue key is dropped from the body by `JSON.stringify`). -/
def stdioUpdatePayload (a : Args) : JsonVal :=
  JsonVal.obj [("issue", JsonVal.obj (
    (match a.issue_key with | some k => [("key", JsonVal.str k)] | none => [])
    ++ optField "title" a.title JsonVal.str
    ++ optField "description" a.description JsonVal.str
    ++ optField "issue_type_id" a.issue_type_id JsonVal.str
    ++ optField "status_id" a.status_id JsonVal.str
    ++ optField "priority_id" a.priority_id JsonVal.str
    ++ optField "owner_id" a.owner_id JsonVal.str
    ++ (match a.custom_fields with
        | some v => if jsTruthy v then [("custom_field", v)] else []
        | none => []) ))]

/-- One stdio handler body of the shape `const data = await
makeFreshReleaseRequest(...); return {content: [text(data)]}`. -/
def stdioWrap (st : StdioState) (env : Env) (method endpoint : String)
    (body : Option JsonVal) :
    Except String (List ContentItem) × List Request × StdioState :=
  match makeFreshReleaseRequest st method endpoint body none env with
  | (Except.error e, tr) => (Except.error e, tr, st)
  | (Except.ok data, tr) => (Except.ok [textJson data], tr, st)

/-- The stdio `switch (name)` inside the `try` block.  `set_api_token`
overwrites the credential cell with the argument (possibly
`undefined`). -/
def stdioRunTool (name : String) (a : Args) (st : StdioState) (env : Env) :
    Except String (List ContentItem) × List Request × StdioState :=
  if name = "freshrelease_set_api_token" then
    (Except.ok [textPlain "API token set successfully for this session."], [],
      { apiToken := a.api_token })
  else if name = "freshrelease_get_users" then
    let page : Int := match a.page with | some p => if p = 0 then 1 else p | none => 1
    stdioWrap st env "GET" ("/" ++ PROJECT_KEY ++ "/users?page=" ++ toString page) none
  else if name = "freshrelease_get_statuses" then
    stdioWrap st env "GET" ("/" ++ PROJECT_KEY ++ "/statuses") none
  else if name = "freshrelease_get_issue_types" then
    stdioWrap st env "GET" ("/" ++ PROJECT_KEY ++ "/issue_types") none
  else if name = "freshrelease_get_issue" then
    stdioWrap st env "GET" ("/" ++ PROJECT_KEY ++ "/issues/" ++ jsTemplate a.issue_key) none
  else if name = "freshrelease_create_issue" then
    stdioWrap st env "POST" ("/" ++ PROJECT_KEY ++ "/issues")
      (some (stdioCreatePayload a))
  else if name = "freshrelease_update_issue" then
    stdioWrap st env "PUT" ("/" ++ PROJECT_KEY ++ "/issues/" ++ jsTemplate a.issue_key)
      (some (stdioUpdatePayload a))
  else if name = "freshrelease_add_comment" then
    stdioWrap st env "POST"
      ("/" ++ PROJECT_KEY ++ "/issues/" ++ jsTemplate a.issue_id ++ "/comments")
      (some (objFiltered [("content", a.content.map JsonVal.str)]))
  else if name = "freshrelease_get_comments" then
    stdioWrap st env "GET"
      ("/" ++ PROJECT_KEY ++ "/issues/" ++ jsTemplate a.issue_id ++ "/comments") none
  else (Except.error ("Unknown tool: " ++ name), [], st)

/-- The stdio CallTool dispatcher: the whole switch sits inside one
`try`, so every thrown error (the credential check included) becomes an
`isError` outcome with a single text item. -/
def stdioDispatch (name : String) (a : Args) (st : StdioState) (env : Env) :
    ToolOutcome × List Request × StdioState :=
  match stdioRunTool name a st env with
  | (Except.ok content, tr, st') => ({ content := content, isError := false }, tr, st')
  | (Except.error e, tr, st') =>
    ({ content := [textPlain ("Error: " ++ e)], isError := true }, tr, st')

/-! ## Concrete fixtures -/

/-- A 200 response whose body is `{users: [...]}`. -/
def usersPage (us : List JsonVal) : Response :=
  { status := 200, statusText := "OK",
    body := Except.ok (JsonVal.obj [("users", JsonVal.arr us)]), rawText := "" }

def bobUser : JsonVal := JsonVal.obj
  [("id", JsonVal.num 7), ("name", JsonVal.str "Bob Stone"),
   ("email", JsonVal.str "bob.stone@example.com")]

def carlaUser : JsonVal := JsonVal.obj
  [("id", JsonVal.num 8), ("name", JsonVal.str "Carla Diaz"),
   ("email", JsonVal.str "carla.diaz@example.com")]

def daveUser : JsonVal := JsonVal.obj
  [("id", JsonVal.num 9), ("name", JsonVal.str "Dave Wu"),
   ("email", JsonVal.str "dave.wu@example.com")]

def annaUser : JsonVal := JsonVal.obj
  [("id", JsonVal.num 42), ("name", JsonVal.str "Anna Lee"),
   ("email", JsonVal.str "anna.lee@example.com")]

/-- The three-page users fixture: page 1 holds two users, page 2 holds
two users (the second named "Anna Lee"), page 3 and beyond are empty. -/
def annaEnv : Env := fun req =>
  if req.path = (usersReq "FBOTS" 1).path then usersPage [bobUser, carlaUser]
  else if req.path = (usersReq "FBOTS" 2).path then usersPage [daveUser, annaUser]
  else usersPage []

/-- A generic all-200 environment with an empty-object JSON body. -/
def env200 : Env := fun _ =>
  { status := 200, statusText := "OK", body := Except.ok (JsonVal.obj []), rawText := "" }

/-! ## Characterization of the pagination loop -/

/-- Number of pages the pagination loop fetches when started at `page`
with the given fuel: it always fetches the first page it visits, and
continues only while `pageStops` is false. -/
def loopLen (env : Env) (project : String) : Nat → Nat → Nat
  | 0, _ => 0
  | fuel + 1, page =>
    if pageStops env project page then 1
    else loopLen env project fuel (page + 1) + 1

theorem searchLoop_trace (env : Env) (project : String) :
    ∀ (fuel page : Nat) (acc : List JsonVal) (tr : List Request),
    (searchLoop env project fuel page acc tr).2 =
      tr ++ (List.range' page (loopLen env project fuel page)).map (usersReq project) := by
  intro fuel
  induction fuel with
  | zero => intro page acc tr; simp [searchLoop, loopLen]
  | succ n ih =>
    intro page acc tr
    rcases hok : (env (usersReq project page)).ok
    · simp [searchLoop, loopLen, pageStops, hok, List.range'_succ]
    · rcases hb : (env (usersReq project page)).body with e | data
      · simp [searchLoop, loopLen, pageStops, hok, hb, List.range'_succ]
      · rcases hemp : (usersFieldOf data).isEmpty
        · have hrw : searchLoop env project (n + 1) page acc tr =
              searchLoop env project n (page + 1) (acc ++ usersFieldOf data)
                (tr ++ [usersReq project page]) := by
            simp [searchLoop, hok, hb, hemp]
          have hlen : loopLen env project (n + 1) page =
              loopLen env project n (page + 1) + 1 := by
            simp [loopLen, pageStops, hok, hb, hemp]
          rw [hrw, ih, hlen]
          simp [List.range'_succ]
        · simp [searchLoop, loopLen, pageStops, hok, hb, hemp, List.range'_succ]

theorem loopLen_le (env : Env) (project : String) :
    ∀ (fuel page : Nat), loopLen env project fuel page ≤ fuel := by
  intro fuel
  induction fuel with
  | zero => intro page; simp [loopLen]
  | succ n ih =>
    intro page
    rcases hs : pageStops env project page
    · have := ih (page + 1)
      simp only [loopLen, hs]
      simp only [Bool.false_eq_true, if_false]
      omega
    · simp [loopLen, hs]

theorem loopLen_interior (env : Env) (project : String) :
    ∀ (fuel page i : Nat), i + 1 < loopLen env project fuel page →
      pageStops env project (page + i) = false := by
  intro fuel
  induction fuel with
  | zero => intro page i h; simp [loopLen] at h
  | succ n ih =>
    intro page i h
    rcases hs : pageStops env project page
    · cases i with
      | zero => simpa using hs
      | succ j =>
        simp only [loopLen, hs, Bool.false_eq_true, if_false] at h
        have := ih (page + 1) j (by omega)
        have harith : page + 1 + j = page + (j + 1) := by omega
        rwa [harith] at this
    · simp [loopLen, hs] at h

theorem loopLen_last (env : Env) (project : String) :
    ∀ (fuel page : Nat), loopLen env project fuel page = fuel ∨
      (0 < loopLen env project fuel page ∧
        pageStops env project (page + (loopLen env project fuel page - 1)) = true) := by
  intro fuel
  induction fuel with
  | zero => intro page; left; simp [loopLen]
  | succ n ih =>
    intro page
    rcases hs : pageStops env project page
    · have hrw : loopLen env project (n + 1) page =
          loopLen env project n (page + 1) + 1 := by
        simp [loopLen, hs]
      rcases ih (page + 1) with h | ⟨hpos, hstop⟩
      · left; rw [hrw, h]
      · right
        refine ⟨by rw [hrw]; omega, ?_⟩
        rw [hrw]
        have harith : page + (loopLen env project n (page + 1) + 1 - 1) =
            page + 1 + (loopLen env project n (page + 1) - 1) := by omega
        rwa [harith]
    · right; simp [loopLen, hs]

/-- The trace of the whole search is exactly the loop's trace. -/
theorem searchUserByName_trace (s : String) (env : Env) (project : String) :
    (searchUserByName s env project).2 =
      (List.range' 1 (loopLen env project maxPages 1)).map (usersReq project) := by
  have h := searchLoop_trace env project maxPages 1 [] []
  rcases hs : searchLoop env project maxPages 1 [] [] with ⟨r, tr⟩
  rw [hs] at h
  simp only [List.nil_append] at h
  unfold searchUserByName
  rw [hs]
  rcases r with e | us
  · simpa using h
  · rcases hf : us.find? (userMatches (toLowerJS s)) with _ | u <;> simpa [hf] using h

/-- C1 counterexample: on the 3-page fixture (sizes 2, 2, 0 with "Anna
Lee" on page 2) the search does fetch page 3 — the empty page itself is
requested before the loop stops — so the claimed trace of pages 1–2 only
is wrong. -/
theorem c1_counterexample :
    usersReq "FBOTS" 3 ∈ (searchUserByName "ann" annaEnv "FBOTS").2 ∧
    (searchUserByName "ann" annaEnv "FBOTS").2 ≠
      [usersReq "FBOTS" 1, usersReq "FBOTS" 2] := by
  have h : (searchUserByName "ann" annaEnv "FBOTS").2 =
      [usersReq "FBOTS" 1, usersReq "FBOTS" 2, usersReq "FBOTS" 3] := rfl
  rw [h]
  refine ⟨by simp, by simp⟩

/-- C1 (amended): on the fixture of 3 user pages of sizes 2, 2, 0 with
"Anna Lee" on page 2, `search_user_by_name "ann"` fetches pages 1, 2 and
the empty page 3 — stopping there, without fetching page 4 — and returns
`{found: true, user: {id, name: "Anna Lee", email}}`.  In general the
search pages through the users listing with a fixed page ceiling of 10,
fetches consecutive pages from 1, continues past a page only when it was
a success with a nonempty users array (so it stops right after an empty
page or a non-success status), and matches case-insensitively against
each user's name or email. -/
theorem c1_search_pagination :
    (searchUserByName "ann" annaEnv "FBOTS" =
      (Except.ok (SearchResult.found (some (JsonVal.num 42))
        (some (JsonVal.str "Anna Lee")) (some (JsonVal.str "anna.lee@example.com"))),
       [usersReq "FBOTS" 1, usersReq "FBOTS" 2, usersReq "FBOTS" 3])) ∧
    (∀ (s : String) (env : Env) (project : String), ∃ k : Nat, k ≤ maxPages ∧
      (searchUserByName s env project).2 = (List.range' 1 k).map (usersReq project) ∧
      (∀ i, i + 1 < k → pageStops env project (1 + i) = false) ∧
      (k = maxPages ∨ (0 < k ∧ pageStops env project k = true))) ∧
    userMatches (toLowerJS "ann") annaUser = true ∧
    userMatches (toLowerJS "ann") bobUser = false ∧
    userMatches (toLowerJS "CARLA.DIAZ") carlaUser = true := by
  refine ⟨rfl, ?_, rfl, rfl, rfl⟩
  intro s env project
  refine ⟨loopLen env project maxPages 1, loopLen_le env project maxPages 1,
    searchUserByName_trace s env project, loopLen_interior env project maxPages 1, ?_⟩
  rcases loopLen_last env project maxPages 1 with h | ⟨hpos, hstop⟩
  · exact Or.inl h
  · refine Or.inr ⟨hpos, ?_⟩
    have harith : 1 + (loopLen env project maxPages 1 - 1) =
        loopLen env project maxPages 1 := by omega
    rwa [harith] at hstop

/-- C1 witness: the amended theorem applied to the fixture yields the
concrete trace of pages 1, 2, 3. -/
theorem c1_search_pagination_witness :
    (searchUserByName "ann" annaEnv "FBOTS").2 =
      [usersReq "FBOTS" 1, usersReq "FBOTS" 2, usersReq "FBOTS" 3] :=
  congrArg Prod.snd c1_search_pagination.1

/-- An environment answering every request with a 404 whose JSON body is
`{message: "nope"}`. -/
def env404 : Env := fun _ =>
  { status := 404, statusText := "Not Found",
    body := Except.ok (JsonVal.obj [("message", JsonVal.str "nope")]), rawText := "" }

/-- C2 counterexample: the index.ts `get_issue` handler does not
special-case 404 — on an upstream 404 whose body is `{message: "nope"}`
it returns that raw body as the (non-error) content, which does not
contain the structured `{error: "Issue not found"}` payload the claim
requires of every `get_issue` invocation. -/
theorem c2_counterexample :
    dispatch "freshrelease_get_issue"
        { issue_key := some "FBOTS-1", api_token := some "tok" } none env404 =
      (Except.ok
        { content := [textJson (JsonVal.obj [("message", JsonVal.str "nope")])],
          isError := false },
        [issueReq "FBOTS" "FBOTS-1"]) ∧
    TextPayload.jsonOf (JsonVal.obj [("error", JsonVal.str "Issue not found")]) ∉
      ([textJson (JsonVal.obj [("message", JsonVal.str "nope")])].map ContentItem.text) := by
  refine ⟨rfl, ?_⟩
  simp [textJson]

/-- C2 (amended): the 404 special case lives in the server.ts `/mcp`
tools-call dispatcher: there, a `get_issue` with a well-formed key whose
upstream GET returns 404 yields a non-error outcome whose single content
item is the structured `{error: "Issue not found"}` payload.  The
index.ts dispatcher instead passes the upstream 404 JSON body through
unchanged, also with `is_error = false`. -/
theorem c2_get_issue_404 (key proj : String) (env : Env)
    (hk : extractProjectKey key = Except.ok proj)
    (h404 : (env (issueReq proj key)).status = 404) :
    mcpGetIssue key env =
      (Except.ok
        { content := [textJson (JsonVal.obj [("error", JsonVal.str "Issue not found")])],
          isError := false },
        [issueReq proj key]) ∧
    (∀ (a : Args) (cfgTok : Option String) (t : String) (data : JsonVal),
      a.issue_key = some key → tokenOf a cfgTok = some t →
      (env (issueReq proj key)).body = Except.ok data →
      dispatch "freshrelease_get_issue" a cfgTok env =
        (Except.ok { content := [textJson data], isError := false },
          [issueReq proj key])) := by
  have hkey : key ≠ "" := by
    intro h
    rw [h] at hk
    exact Except.noConfusion hk
  constructor
  · simp [mcpGetIssue, mcpGetIssueBranch, hk, h404]
  · intro a cfgTok t data hak htok hbody
    simp [dispatch, htok, runTool, getIssueHandler, hak, truthyStr, hkey, hk, hbody]

/-- C2 witness: the amended theorem at the concrete 404 environment. -/
theorem c2_get_issue_404_witness :
    mcpGetIssue "FBOTS-1" env404 =
      (Except.ok
        { content := [textJson (JsonVal.obj [("error", JsonVal.str "Issue not found")])],
          isError := false },
        [issueReq "FBOTS" "FBOTS-1"]) :=
  (c2_get_issue_404 "FBOTS-1" "FBOTS" env404 rfl rfl).1

/-- The key list of the nested `issue` object of a request body. -/
def issueFieldKeys (v : JsonVal) : List String :=
  match getField v "issue" with
  | some (JsonVal.obj fs) => fs.map Prod.fst
  | _ => []

theorem optField_keys (k : String) (v : Option String) (f : String → JsonVal) :
    (optField k v f).map Prod.fst =
      if (truthyStr v).isSome then [k] else [] := by
  rcases h : truthyStr v with _ | s <;> simp [optField, h]

/-- C3: `update_issue` with only `issue_key` and `title` sends a PUT
whose body is exactly `{issue: {key, title}}`; in general the body's
`issue` object holds the key plus precisely the optional fields that
were supplied truthy, in assignment order — falsy or absent optional
fields are omitted entirely, not sent as null. -/
theorem c3_update_body_exact :
    (∀ (key t : String), t ≠ "" →
      updateIssuePayload key { title := some t } =
        JsonVal.obj [("issue", JsonVal.obj
          [("key", JsonVal.str key), ("title", JsonVal.str t)])]) ∧
    (∀ (key t proj : String) (env : Env), t ≠ "" → key ≠ "" →
      extractProjectKey key = Except.ok proj →
      (updateIssueHandler { issue_key := some key, title := some t } env).2 =
        [updateIssueReq proj key (JsonVal.obj [("issue", JsonVal.obj
          [("key", JsonVal.str key), ("title", JsonVal.str t)])])]) ∧
    (∀ (key : String) (a : Args),
      issueFieldKeys (updateIssuePayload key a) =
        ["key"]
        ++ (if (truthyStr a.title).isSome then ["title"] else [])
        ++ (if (truthyStr a.description).isSome then ["description"] else [])
        ++ (if (truthyStr a.issue_type_id).isSome then ["issue_type_id"] else [])
        ++ (if (truthyStr a.status_id).isSome then ["status_id"] else [])
        ++ (if (truthyStr a.owner_id).isSome then ["owner_id"] else [])
        ++ (if (truthyStr a.priority_id).isSome then ["priority_id"] else [])) := by
  refine ⟨?_, ?_, ?_⟩
  · intro key t ht
    simp [updateIssuePayload, optField, parsedIdField, truthyStr, ht]
  · intro key t proj env ht hkey hk
    rcases hbody : (env (updateIssueReq proj key (JsonVal.obj [("issue", JsonVal.obj
        [("key", JsonVal.str key), ("title", JsonVal.str t)])]))).body with e | data <;>
      simp [updateIssueHandler, truthyStr, hkey, hk, updateIssuePayload, optField,
        parsedIdField, ht, hbody]
  · intro key a
    simp [issueFieldKeys, updateIssuePayload, getField, parsedIdField,
      List.map_append, optField_keys]

/-- C3 witness: the theorem applied at a concrete key and title. -/
theorem c3_update_body_exact_witness :
    updateIssuePayload "FBOTS-1" { title := some "New title" } =
      JsonVal.obj [("issue", JsonVal.obj
        [("key", JsonVal.str "FBOTS-1"), ("title", JsonVal.str "New title")])] :=
  c3_update_body_exact.1 "FBOTS-1" "New title" (by decide)

/-- C4: `add_comment` issues exactly two upstream calls in order — a GET
on the issue endpoint resolving the key to the numeric issue id, then a
POST to `issues/{id}/comments` with body `{content}` — and its outcome
embeds both the original issue key and the resolved id.  When the lookup
returns a non-ok status it fails with `Issue KEY not found`; when the
`issue.id` field is absent it fails with the extraction error, in both
cases after only the one GET. -/
theorem c4_add_comment_two_calls (key content proj : String) (env : Env)
    (hkey : key ≠ "") (hc : content ≠ "")
    (hp : extractProjectKey key = Except.ok proj) :
    (∀ (idv data commentBody : JsonVal),
      (env (issueReq proj key)).ok = true →
      (env (issueReq proj key)).body = Except.ok data →
      getField2 data "issue" "id" = some idv → jsTruthy idv = true →
      (env (commentsPostReq proj (jsToString idv)
        (JsonVal.obj [("content", JsonVal.str content)]))).body = Except.ok commentBody →
      addCommentHandler { issue_key := some key, content := some content } env =
        (Except.ok [textJson (JsonVal.obj
          [("success", JsonVal.bool true), ("issue_key", JsonVal.str key),
           ("issue_id", idv), ("comment", commentBody)])],
         [issueReq proj key,
          commentsPostReq proj (jsToString idv)
            (JsonVal.obj [("content", JsonVal.str content)])])) ∧
    ((env (issueReq proj key)).ok = false →
      addCommentHandler { issue_key := some key, content := some content } env =
        (Except.error ("Issue " ++ key ++ " not found"), [issueReq proj key])) ∧
    (∀ (data : JsonVal), (env (issueReq proj key)).ok = true →
      (env (issueReq proj key)).body = Except.ok data →
      getField2 data "issue" "id" = none →
      addCommentHandler { issue_key := some key, content := some content } env =
        (Except.error "Could not extract issue ID from response",
          [issueReq proj key])) := by
  refine ⟨?_, ?_, ?_⟩
  · intro idv data commentBody hok hbody hid htruthy hpost
    simp [addCommentHandler, getIssueIdFromKey, truthyStr, hkey, hc, hp,
      hok, hbody, hid, htruthy, hpost]
  · intro hok
    simp [addCommentHandler, getIssueIdFromKey, truthyStr, hkey, hc, hp, hok]
  · intro data hok hbody hid
    simp [addCommentHandler, getIssueIdFromKey, truthyStr, hkey, hc, hp,
      hok, hbody, hid]

/-- A fixture for the add-comment flow: the issue lookup answers with
`{issue: {id: 2563487, key}}`, the comment POST answers 201 with a
comment payload. -/
def commentEnv : Env := fun req =>
  if req.path = (issueReq "FBOTS" "FBOTS-100").path then
    { status := 200, statusText := "OK",
      body := Except.ok (JsonVal.obj [("issue", JsonVal.obj
        [("id", JsonVal.num 2563487), ("key", JsonVal.str "FBOTS-100")])]),
      rawText := "" }
  else
    { status := 201, statusText := "Created",
      body := Except.ok (JsonVal.obj
        [("id", JsonVal.num 999), ("content", JsonVal.str "hello")]),
      rawText := "" }

/-- C4 witness: `add_comment("FBOTS-100", "hello")` on the fixture. -/
theorem c4_add_comment_two_calls_witness :
    addCommentHandler { issue_key := some "FBOTS-100", content := some "hello" }
        commentEnv =
      (Except.ok [textJson (JsonVal.obj
        [("success", JsonVal.bool true), ("issue_key", JsonVal.str "FBOTS-100"),
         ("issue_id", JsonVal.num 2563487),
         ("comment", JsonVal.obj
           [("id", JsonVal.num 999), ("content", JsonVal.str "hello")])])],
       [issueReq "FBOTS" "FBOTS-100",
        commentsPostReq "FBOTS" "2563487"
          (JsonVal.obj [("content", JsonVal.str "hello")])]) :=
  (c4_add_comment_two_calls "FBOTS-100" "hello" "FBOTS" commentEnv
    (by decide) (by decide) rfl).1
    (JsonVal.num 2563487)
    (JsonVal.obj [("issue", JsonVal.obj
      [("id", JsonVal.num 2563487), ("key", JsonVal.str "FBOTS-100")])])
    (JsonVal.obj [("id", JsonVal.num 999), ("content", JsonVal.str "hello")])
    rfl rfl rfl rfl rfl

/-- C5: when a credential resolves, the dispatcher always returns an
outcome (`Except.ok`) — no handler exception escapes — and any error the
handler raised (missing required argument, upstream failure, JSON parse
failure, all of which are `Except.error` results of `runTool`) is
converted into an `is_error` outcome with the single descriptive text
item `Error: ...`.  When no credential resolves, the dispatcher throws
before the `try` block with an empty request trace: the failure is
reported before any network call is attempted. -/
theorem c5_error_propagation :
    (∀ (name : String) (a : Args) (cfgTok : Option String) (env : Env)
       (t : String), tokenOf a cfgTok = some t →
       ∃ (o : ToolOutcome) (tr : List Request),
         dispatch name a cfgTok env = (Except.ok o, tr)) ∧
    (∀ (name : String) (a : Args) (cfgTok : Option String) (env : Env)
       (t e : String) (tr : List Request), tokenOf a cfgTok = some t →
       runTool name a env = (Except.error e, tr) →
       dispatch name a cfgTok env =
         (Except.ok { content := [textPlain ("Error: " ++ e)], isError := true },
           tr)) ∧
    (∀ (name : String) (a : Args) (cfgTok : Option String) (env : Env),
       tokenOf a cfgTok = none →
       dispatch name a cfgTok env = (Except.error tokenRequiredMsg, [])) := by
  refine ⟨?_, ?_, ?_⟩
  · intro name a cfgTok env t htok
    rcases hr : runTool name a env with ⟨r, tr⟩
    rcases r with e | c
    · exact ⟨{ content := [textPlain ("Error: " ++ e)], isError := true }, tr,
        by simp [dispatch, htok, hr]⟩
    · exact ⟨{ content := c, isError := false }, tr, by simp [dispatch, htok, hr]⟩
  · intro name a cfgTok env t e tr htok hrun
    simp [dispatch, htok, hrun]
  · intro name a cfgTok env htok
    simp [dispatch, htok]

/-- C5 witness: a `get_issue` call missing its required `issue_key`
becomes a non-thrown `is_error` outcome with the descriptive message. -/
theorem c5_error_propagation_witness :
    dispatch "freshrelease_get_issue" { api_token := some "tok" } none env200 =
      (Except.ok
        { content := [textPlain "Error: issue_key is required"], isError := true },
        []) :=
  c5_error_propagation.2.1 "freshrelease_get_issue" { api_token := some "tok" }
    none env200 "tok" "issue_key is required" [] rfl rfl

theorem splitChars_no_sep (sep : Char) :
    ∀ (cs : List Char), sep ∉ cs → splitChars sep cs = [cs] := by
  intro cs
  induction cs with
  | nil => intro h; rfl
  | cons c rest ih =>
    intro h
    have hc : ¬ c = sep := by
      intro hh
      exact h (by rw [hh]; exact List.mem_cons_self _ _)
    rw [splitChars, if_neg hc, ih (fun hm => h (List.mem_cons_of_mem _ hm))]

/-- A key without the `-` separator splits into a single part, so the
validation throws. -/
theorem extractProjectKey_no_sep (key : String) (h : '-' ∉ key.toList) :
    extractProjectKey key = Except.error ("Invalid issue key format: " ++ key ++
      ". Expected format: PROJECT-NUMBER") := by
  unfold extractProjectKey
  rw [splitChars_no_sep '-' key.toList h]
  simp

/-- C6: each issue-key-based tool (get_issue, update_issue, add_comment,
get_comments) called with a nonempty key lacking the `-` separator
yields an `is_error` outcome carrying the `Invalid issue key format`
message, with an empty request trace — no network call is attempted. -/
theorem c6_malformed_key (key t content : String) (env : Env)
    (hsep : '-' ∉ key.toList) (hne : key ≠ "") (ht : t ≠ "")
    (hcont : content ≠ "") :
    dispatch "freshrelease_get_issue"
        { api_token := some t, issue_key := some key } none env =
      (Except.ok { content := [textPlain ("Error: " ++ ("Invalid issue key format: " ++
        key ++ ". Expected format: PROJECT-NUMBER"))], isError := true }, []) ∧
    dispatch "freshrelease_update_issue"
        { api_token := some t, issue_key := some key } none env =
      (Except.ok { content := [textPlain ("Error: " ++ ("Invalid issue key format: " ++
        key ++ ". Expected format: PROJECT-NUMBER"))], isError := true }, []) ∧
    dispatch "freshrelease_add_comment"
        { api_token := some t, issue_key := some key, content := some content }
        none env =
      (Except.ok { content := [textPlain ("Error: " ++ ("Invalid issue key format: " ++
        key ++ ". Expected format: PROJECT-NUMBER"))], isError := true }, []) ∧
    dispatch "freshrelease_get_comments"
        { api_token := some t, issue_key := some key } none env =
      (Except.ok { content := [textPlain ("Error: " ++ ("Invalid issue key format: " ++
        key ++ ". Expected format: PROJECT-NUMBER"))], isError := true }, []) := by
  have hx := extractProjectKey_no_sep key hsep
  refine ⟨?_, ?_, ?_, ?_⟩
  · simp [dispatch, tokenOf, jsOrStr, truthyStr, ht, runTool, getIssueHandler,
      hne, hx]
  · simp [dispatch, tokenOf, jsOrStr, truthyStr, ht, runTool, updateIssueHandler,
      hne, hx]
  · simp [dispatch, tokenOf, jsOrStr, truthyStr, ht, runTool, addCommentHandler,
      hne, hcont, hx]
  · simp [dispatch, tokenOf, jsOrStr, truthyStr, ht, runTool, getCommentsHandler,
      hne, hx]

/-- C6 witness: `get_issue("FBOTS100")` fails fast with the format
message and no upstream request. -/
theorem c6_malformed_key_witness :
    dispatch "freshrelease_get_issue"
        { api_token := some "tok", issue_key := some "FBOTS100" } none env200 =
      (Except.ok
        { content := [textPlain "Error: Invalid issue key format: FBOTS100. Expected format: PROJECT-NUMBER"],
          isError := true },
        []) :=
  (c6_malformed_key "FBOTS100" "tok" "hello" env200
    (by decide) (by decide) (by decide) (by decide)).1

/-- C7: a tool name matching no registered tool yields an `is_error`
outcome whose message names the unknown tool, with no upstream request —
never a silent no-op. -/
theorem c7_unknown_tool (name : String) (a : Args) (cfgTok : Option String)
    (env : Env) (t : String)
    (hreg : name ∉ registeredTools) (htok : tokenOf a cfgTok = some t) :
    dispatch name a cfgTok env =
      (Except.ok
        { content := [textPlain ("Error: " ++ ("Unknown tool: " ++ name))],
          isError := true },
        []) := by
  simp only [registeredTools, List.mem_cons, List.not_mem_nil, or_false,
    not_or] at hreg
  obtain ⟨h1, h2, h3, h4, h5, h6, h7, h8⟩ := hreg
  simp [dispatch, htok, runTool, h1, h2, h3, h4, h5, h6, h7, h8]

/-- C7 witness: an unregistered tool name at a concrete invocation. -/
theorem c7_unknown_tool_witness :
    dispatch "freshrelease_delete_issue" { api_token := some "tok" } none env200 =
      (Except.ok
        { content := [textPlain "Error: Unknown tool: freshrelease_delete_issue"],
          isError := true },
        []) :=
  c7_unknown_tool "freshrelease_delete_issue" { api_token := some "tok" } none
    env200 "tok" (by decide) rfl

/-! ## The content-shape invariant (C8) -/

/-- A content list consisting of exactly one `{type: "text"}` item. -/
def singleText (c : List ContentItem) : Prop :=
  c.length = 1 ∧ ∀ item ∈ c, item.type = "text"

theorem searchHandler_content (a : Args) (env : Env) :
    ∀ c tr, searchHandler a env = (Except.ok c, tr) → singleText c := by
  intro c tr h
  unfold searchHandler at h
  repeat' first | (split at h) | (dsimp only at h)
  all_goals simp only [Prod.mk.injEq] at h
  all_goals obtain ⟨h1, h2⟩ := h
  all_goals first
    | exact Except.noConfusion h1
    | (injection h1 with h3; subst h3; simp [singleText, textJson, textPlain])

theorem getIssueHandler_content (a : Args) (env : Env) :
    ∀ c tr, getIssueHandler a env = (Except.ok c, tr) → singleText c := by
  intro c tr h
  unfold getIssueHandler at h
  repeat' first | (split at h) | (dsimp only at h)
  all_goals simp only [Prod.mk.injEq] at h
  all_goals obtain ⟨h1, h2⟩ := h
  all_goals first
    | exact Except.noConfusion h1
    | (injection h1 with h3; subst h3; simp [singleText, textJson, textPlain])

theorem statusesHandler_content (a : Args) (env : Env) :
    ∀ c tr, statusesHandler a env = (Except.ok c, tr) → singleText c := by
  intro c tr h
  unfold statusesHandler at h
  repeat' first | (split at h) | (dsimp only at h)
  all_goals simp only [Prod.mk.injEq] at h
  all_goals obtain ⟨h1, h2⟩ := h
  all_goals first
    | exact Except.noConfusion h1
    | (injection h1 with h3; subst h3; simp [singleText, textJson, textPlain])

theorem issueTypesHandler_content (a : Args) (env : Env) :
    ∀ c tr, issueTypesHandler a env = (Except.ok c, tr) → singleText c := by
  intro c tr h
  unfold issueTypesHandler at h
  repeat' first | (split at h) | (dsimp only at h)
  all_goals simp only [Prod.mk.injEq] at h
  all_goals obtain ⟨h1, h2⟩ := h
  all_goals first
    | exact Except.noConfusion h1
    | (injection h1 with h3; subst h3; simp [singleText, textJson, textPlain])

theorem createIssueHandler_content (a : Args) (env : Env) :
    ∀ c tr, createIssueHandler a env = (Except.ok c, tr) → singleText c := by
  intro c tr h
  unfold createIssueHandler at h
  repeat' first | (split at h) | (dsimp only at h)
  all_goals simp only [Prod.mk.injEq] at h
  all_goals obtain ⟨h1, h2⟩ := h
  all_goals first
    | exact Except.noConfusion h1
    | (injection h1 with h3; subst h3; simp [singleText, textJson, textPlain])

theorem updateIssueHandler_content (a : Args) (env : Env) :
    ∀ c tr, updateIssueHandler a env = (Except.ok c, tr) → singleText c := by
  intro c tr h
  unfold updateIssueHandler at h
  repeat' first | (split at h) | (dsimp only at h)
  all_goals simp only [Prod.mk.injEq] at h
  all_goals obtain ⟨h1, h2⟩ := h
  all_goals first
    | exact Except.noConfusion h1
    | (injection h1 with h3; subst h3; simp [singleText, textJson, textPlain])

theorem addCommentHandler_content (a : Args) (env : Env) :
    ∀ c tr, addCommentHandler a env = (Except.ok c, tr) → singleText c := by
  intro c tr h
  unfold addCommentHandler at h
  repeat' first | (split at h) | (dsimp only at h)
  all_goals simp only [Prod.mk.injEq] at h
  all_goals obtain ⟨h1, h2⟩ := h
  all_goals first
    | exact Except.noConfusion h1
    | (injection h1 with h3; subst h3; simp [singleText, textJson, textPlain])

theorem getCommentsHandler_content (a : Args) (env : Env) :
    ∀ c tr, getCommentsHandler a env = (Except.ok c, tr) → singleText c := by
  intro c tr h
  unfold getCommentsHandler at h
  repeat' first | (split at h) | (dsimp only at h)
  all_goals simp only [Prod.mk.injEq] at h
  all_goals obtain ⟨h1, h2⟩ := h
  all_goals first
    | exact Except.noConfusion h1
    | (injection h1 with h3; subst h3; simp [singleText, textJson, textPlain])

theorem runTool_content (name : String) (a : Args) (env : Env) :
    ∀ c tr, runTool name a env = (Except.ok c, tr) → singleText c := by
  intro c tr h
  unfold runTool at h
  repeat' split at h
  all_goals first
    | exact searchHandler_content a env c tr h
    | exact getIssueHandler_content a env c tr h
    | exact statusesHandler_content a env c tr h
    | exact issueTypesHandler_content a env c tr h
    | exact createIssueHandler_content a env c tr h
    | exact updateIssueHandler_content a env c tr h
    | exact addCommentHandler_content a env c tr h
    | exact getCommentsHandler_content a env c tr h
    | simp at h

theorem stdioWrap_content (st : StdioState) (env : Env) (method endpoint : String)
    (body : Option JsonVal) :
    ∀ c tr st', stdioWrap st env method endpoint body = (Except.ok c, tr, st') →
      singleText c := by
  intro c tr st' h
  unfold stdioWrap at h
  repeat' first | (split at h) | (dsimp only at h)
  all_goals simp only [Prod.mk.injEq] at h
  all_goals obtain ⟨h1, h2⟩ := h
  all_goals first
    | exact Except.noConfusion h1
    | (injection h1 with h3; subst h3; simp [singleText, textJson, textPlain])

theorem stdioRunTool_content (name : String) (a : Args) (st : StdioState)
    (env : Env) :
    ∀ c tr st', stdioRunTool name a st env = (Except.ok c, tr, st') →
      singleText c := by
  intro c tr st' h
  unfold stdioRunTool at h
  repeat' first | (split at h) | (dsimp only at h)
  all_goals first
    | exact stdioWrap_content _ _ _ _ _ _ _ _ h
    | (simp only [Prod.mk.injEq] at h
       obtain ⟨h1, h2⟩ := h
       first
         | exact Except.noConfusion h1
         | (injection h1 with h3; subst h3; simp [singleText, textJson, textPlain]))

/-- C8: every invocation's returned ToolOutcome — success or failure —
carries exactly one content item, of the form `{type: "text", ...}`; on
the failure path `is_error` is true and the item is the plain
`Error: ...` message.  Holds for the index.ts dispatcher (whenever a
credential resolves, so that an outcome is produced at all) and
unconditionally for the stdio dispatcher. -/
theorem c8_outcome_content :
    (∀ (name : String) (a : Args) (cfgTok : Option String) (env : Env)
       (t : String), tokenOf a cfgTok = some t →
       ∃ (o : ToolOutcome) (tr : List Request),
         dispatch name a cfgTok env = (Except.ok o, tr) ∧
         o.content.length = 1 ∧ (∀ item ∈ o.content, item.type = "text") ∧
         (o.isError = true → ∃ e, o.content = [textPlain ("Error: " ++ e)])) ∧
    (∀ (name : String) (a : Args) (st : StdioState) (env : Env),
       (stdioDispatch name a st env).1.content.length = 1 ∧
       (∀ item ∈ (stdioDispatch name a st env).1.content, item.type = "text") ∧
       ((stdioDispatch name a st env).1.isError = true →
         ∃ e, (stdioDispatch name a st env).1.content =
           [textPlain ("Error: " ++ e)])) := by
  constructor
  · intro name a cfgTok env t htok
    rcases hr : runTool name a env with ⟨r, tr⟩
    rcases r with e | c
    · refine ⟨{ content := [textPlain ("Error: " ++ e)], isError := true }, tr,
        by simp [dispatch, htok, hr], by simp, by simp [textPlain], ?_⟩
      intro _
      exact ⟨e, rfl⟩
    · have hs := runTool_content name a env c tr hr
      refine ⟨{ content := c, isError := false }, tr,
        by simp [dispatch, htok, hr], hs.1, hs.2, ?_⟩
      intro hfalse
      simp at hfalse
  · intro name a st env
    rcases hr : stdioRunTool name a st env with ⟨r, tr, st'⟩
    rcases r with e | c
    · refine ⟨by simp [stdioDispatch, hr], by simp [stdioDispatch, hr, textPlain], ?_⟩
      intro _
      refine ⟨e, ?_⟩
      simp [stdioDispatch, hr]
    · have hs := stdioRunTool_content name a st env c tr st' hr
      refine ⟨by simpa [stdioDispatch, hr] using hs.1, ?_, ?_⟩
      · intro item hm
        refine hs.2 item ?_
        simpa [stdioDispatch, hr] using hm
      · intro hfalse
        simp [stdioDispatch, hr] at hfalse

/-- C8 witness: the invariant instantiated on a concrete `get_statuses`
invocation with a resolving credential. -/
theorem c8_outcome_content_witness :
    ∃ (o : ToolOutcome) (tr : List Request),
      dispatch "freshrelease_get_statuses" { api_token := some "tok" } none
        env200 = (Except.ok o, tr) ∧
      o.content.length = 1 ∧ (∀ item ∈ o.content, item.type = "text") ∧
      (o.isError = true → ∃ e, o.content = [textPlain ("Error: " ++ e)]) :=
  c8_outcome_content.1 "freshrelease_get_statuses" { api_token := some "tok" }
    none env200 "tok" rfl

/-! ## Leading-prefix integer parsing and NaN-to-null (C9) -/

theorem takeWhile_all_append (p : Char → Bool) :
    ∀ (l rest : List Char), (∀ c ∈ l, p c = true) →
      (l ++ rest).takeWhile p = l ++ rest.takeWhile p := by
  intro l
  induction l with
  | nil => intro rest h; simp
  | cons a t ih =>
    intro rest h
    have ha : p a = true := h a (List.mem_cons_self _ _)
    simp [List.takeWhile_cons, ha,
      ih rest (fun c hc => h c (List.mem_cons_of_mem _ hc))]

theorem takeWhile_head_false (p : Char → Bool) (rest : List Char)
    (h : ∀ c, rest.head? = some c → p c = false) :
    rest.takeWhile p = [] := by
  cases rest with
  | nil => rfl
  | cons a t => simp [List.takeWhile_cons, h a rfl]

/-- The coercion reads the longest leading run of decimal digits and
ignores the rest of the string: it is leading-prefix parsing, not
full-string numeric validation. -/
theorem parseIntJS_leading_digits (d : Char) (ds rest : List Char)
    (hd : d.isDigit = true) (hsp : isJsSpace d = false)
    (hm : d ≠ '-') (hp : d ≠ '+') (h0 : d ≠ '0')
    (hds : ∀ c ∈ ds, c.isDigit = true)
    (hrest : ∀ c, rest.head? = some c → c.isDigit = false) :
    parseIntJS (String.mk (d :: (ds ++ rest))) =
      some (((d :: ds).foldl (fun a c => a * 10 + digitVal c) 0 : Nat) : Int) := by
  have htake : ((d :: ds) ++ rest).takeWhile Char.isDigit = d :: ds := by
    rw [takeWhile_all_append Char.isDigit (d :: ds) rest
      (by intro c hc; rcases List.mem_cons.mp hc with h | h
          · rw [h]; exact hd
          · exact hds c h)]
    rw [takeWhile_head_false Char.isDigit rest hrest, List.append_nil]
  have hdec : decDigitsVal (d :: (ds ++ rest)) =
      some ((d :: ds).foldl (fun a c => a * 10 + digitVal c) 0) := by
    unfold decDigitsVal
    have : (d :: (ds ++ rest)).takeWhile Char.isDigit = d :: ds := htake
    rw [this]
  have hhex : startsWithHex (d :: (ds ++ rest)) = false := by
    cases ds ++ rest with
    | nil => rfl
    | cons c1 t2 => simp [startsWithHex, h0]
  have hmag : parseIntMagnitude (d :: (ds ++ rest)) =
      some ((d :: ds).foldl (fun a c => a * 10 + digitVal c) 0) := by
    unfold parseIntMagnitude
    rw [hhex]
    simp only [Bool.false_eq_true, if_false]
    exact hdec
  show parseIntJS (String.mk (d :: (ds ++ rest))) = _
  unfold parseIntJS
  have hlist : (String.mk (d :: (ds ++ rest))).toList = d :: (ds ++ rest) := rfl
  rw [hlist, List.dropWhile_cons, hsp]
  simp only [Bool.false_eq_true, if_false]
  rw [if_neg hm, if_neg hp, hmag]
  rfl

/-- C9: a non-numeric string supplied for an ID-like field passes the
truthiness check, is fed to `parseInt` which yields NaN, and NaN is
transmitted as `null` in the outbound JSON body — present as null rather
than rejected or omitted — in both `create_issue` and `update_issue`;
and the coercion is leading-prefix parsing (`"12abc"` parses to 12), not
full-string validation. -/
theorem c9_parseint_nan_null :
    (parseIntJS "abc" = none ∧ parseIntJS "x12" = none ∧
     parseIntJS "12abc" = some 12 ∧ parseIntJS "7.5" = some 7 ∧
     parseIntJS "  -34xy" = some (-34)) ∧
    (∀ (d : Char) (ds rest : List Char),
      d.isDigit = true → isJsSpace d = false → d ≠ '-' → d ≠ '+' → d ≠ '0' →
      (∀ c ∈ ds, c.isDigit = true) →
      (∀ c, rest.head? = some c → c.isDigit = false) →
      parseIntJS (String.mk (d :: (ds ++ rest))) =
        some (((d :: ds).foldl (fun a c => a * 10 + digitVal c) 0 : Nat) : Int)) ∧
    (∀ (title project s : String), s ≠ "" → parseIntJS s = none →
      getField2 (createIssuePayload title none "14" (some s) none none project)
        "issue" "owner_id" = some JsonVal.null) ∧
    (∀ (key s : String), s ≠ "" → parseIntJS s = none →
      getField2 (updateIssuePayload key { owner_id := some s }) "issue"
        "owner_id" = some JsonVal.null) ∧
    dispatch "freshrelease_create_issue"
        { api_token := some "tok", title := some "T", issue_type_id := some "abc",
          owner_id := some "xyz", priority_id := some "p0", status_id := some "q0" }
        none env200 =
      (Except.ok { content := [textJson (JsonVal.obj [])], isError := false },
       [createIssueReq "FBOTS" (JsonVal.obj [("issue", JsonVal.obj
         [("title", JsonVal.str "T"), ("description", JsonVal.str ""),
          ("key", JsonVal.str "FBOTS"), ("issue_type_id", JsonVal.null),
          ("owner_id", JsonVal.null), ("priority_id", JsonVal.null),
          ("status_id", JsonVal.null)])])]) := by
  refine ⟨⟨by decide, by decide, by decide, by decide, by decide⟩,
    parseIntJS_leading_digits, ?_, ?_, rfl⟩
  · intro title project s hs hparse
    simp [createIssuePayload, getField2, getField, truthyStr, hs, hparse,
      jsNumToJson]
  · intro key s hs hparse
    simp [updateIssuePayload, getField2, getField, optField, parsedIdField,
      truthyStr, hs, hparse, jsNumToJson]

/-- C9 witness: the NaN-to-null path at the concrete string "abc". -/
theorem c9_parseint_nan_null_witness :
    getField2 (createIssuePayload "T" none "14" (some "abc") none none "FBOTS")
      "issue" "owner_id" = some JsonVal.null :=
  c9_parseint_nan_null.2.2.1 "T" "FBOTS" "abc" (by decide) (by decide)

/-! ## Keys that begin with the separator (C10) -/

theorem splitChars_length_pos (sep : Char) :
    ∀ cs, 0 < (splitChars sep cs).length := by
  intro cs
  cases cs with
  | nil => simp [splitChars]
  | cons c t =>
    rw [splitChars]
    by_cases h : c = sep
    · simp [h]
    · rcases hs : splitChars sep t with _ | ⟨p, ps⟩ <;> simp [h, hs]

/-- C10: an issue key beginning with the `-` separator passes the
format validation — the first split part is the empty string, so the
derived project key is `""` — and the request path then carries an empty
project segment (`//`) instead of the operation failing with an
InvalidArgument condition. -/
theorem c10_leading_separator :
    extractProjectKey "-123" = Except.ok "" ∧
    (∀ (key : String), key.toList.head? = some '-' →
      ∃ t, key.toList = '-' :: t ∧ extractProjectKey key = Except.ok "") ∧
    dispatch "freshrelease_get_issue"
        { api_token := some "tok", issue_key := some "-123" } none env200 =
      (Except.ok { content := [textJson (JsonVal.obj [])], isError := false },
       [issueReq "" "-123"]) ∧
    (issueReq "" "-123").path =
      "https://freshworks.freshrelease.com//issues/-123" ∧
    containsStr (issueReq "" "-123").path "//" = true := by
  refine ⟨rfl, ?_, rfl, rfl, rfl⟩
  intro key h
  rcases hl : key.toList with _ | ⟨c, t⟩
  · rw [hl] at h; simp at h
  · rw [hl] at h
    simp only [List.head?_cons, Option.some.injEq] at h
    subst h
    refine ⟨t, rfl, ?_⟩
    unfold extractProjectKey
    rw [hl]
    have hpos := splitChars_length_pos '-' t
    rw [show splitChars '-' ('-' :: t) = [] :: splitChars '-' t by simp [splitChars]]
    rw [if_neg (by simp only [List.map_cons, List.length_cons, List.length_map]; omega)]
    rfl

/-- C10 witness: a concrete key starting with the separator derives the
empty project key. -/
theorem c10_leading_separator_witness :
    ∃ t, ("-9" : String).toList = '-' :: t ∧
      extractProjectKey "-9" = Except.ok "" :=
  c10_leading_separator.2.1 "-9" rfl

end Fresh
